import Mathlib

/-!
Shallow embedding of the scene/object core of the Dviglo engine
(source files `source/dviglo/scene/scene.cpp` and
`source/dviglo/core/string_hash_register.cpp`), together with theorems
settling the frozen claims about id allocation, lifecycle event ordering,
asynchronous loading and the string-hash registry.

Machine integers (`NodeId`, `ComponentId`, `u32`) are modelled as `Nat`;
the id ranges involved are far from 2^32 so no wraparound arithmetic is
exercised by the embedded code paths.  Floats (`timeScale_`, progress
ratios) are modelled as `ℚ`: the embedded operations are order- and
field-operations (`Max`, division) whose results the claims constrain only
through order and algebraic facts.
-/

namespace Dviglo

/-- Modelled from the spec: the id range constants live in `scene.h`, which is
not part of the provided sources (only `scene.cpp` is).  The spec states that
replicated and local ids are drawn from two disjoint numeric ranges, replicated
ids being the low range; the concrete values follow the upstream Urho3D
convention the fork inherits. -/
def FIRST_REPLICATED_ID : Nat := 0x1

/-- Modelled from the spec: last id of the replicated range (see
`FIRST_REPLICATED_ID`). -/
def LAST_REPLICATED_ID : Nat := 0xffffff

/-- Modelled from the spec: first id of the local range, disjoint from and
above the replicated range. -/
def FIRST_LOCAL_ID : Nat := 0x01000000

/-- Modelled from the spec: last id of the local range. -/
def LAST_LOCAL_ID : Nat := 0xffffffff

/-- Modelled from the spec: `Scene::IsReplicatedID` (declared in the missing
`scene.h`): an id is replicated exactly when it lies below the local range.
`scene.cpp` uses it to choose between the replicated and local lookup
tables. -/
def IsReplicatedID (id : Nat) : Bool := id < FIRST_LOCAL_ID

/-- `CreateMode` from the scene headers: whether an entity gets a replicated
or a local id. -/
inductive CreateMode where
  | REPLICATED
  | LOCAL
deriving DecidableEq

/-- `LoadMode` of async loading.  Modelled from the spec: the enumeration
(resource-prefetch-only, full-scene-replace, scene-with-resources) is declared
in the missing `scene.h`; `scene.cpp` compares modes with
`mode > LOAD_RESOURCES_ONLY`, so the order below mirrors the declaration
order with `LOAD_RESOURCES_ONLY` first. -/
inductive LoadMode where
  | LOAD_RESOURCES_ONLY
  | LOAD_SCENE
  | LOAD_SCENE_AND_RESOURCES
deriving DecidableEq

/-- The comparison `mode_ > LOAD_RESOURCES_ONLY` used throughout
`scene.cpp` to distinguish structural loads from pure resource prefetch. -/
def LoadMode.isStructural : LoadMode → Bool
  | .LOAD_RESOURCES_ONLY => false
  | .LOAD_SCENE => true
  | .LOAD_SCENE_AND_RESOURCES => true

/-! ### Lookup tables

The scene's `HashMap<NodeId, Node*>` / `HashMap<ComponentId, Component*>`
tables are embedded as association lists from ids to opaque entity handles
(`Nat`).  `tableFind` embeds `HashMap::Find`, `tableInsert` the
`map[key] = value` assignment (replace or append), `tableErase`
`HashMap::Erase`, `tableContains` `HashMap::Contains`. -/

/-- `HashMap::Find`: the value stored under a key, if any. -/
def tableFind (t : List (Nat × Nat)) (id : Nat) : Option Nat :=
  match t with
  | [] => none
  | (k, v) :: rest => if k = id then some v else tableFind rest id

/-- `HashMap::Contains`. -/
def tableContains (t : List (Nat × Nat)) (id : Nat) : Bool :=
  (tableFind t id).isSome

/-- `map[key] = value`: replace the binding if the key is present, append
otherwise. -/
def tableInsert (t : List (Nat × Nat)) (id v : Nat) : List (Nat × Nat) :=
  match t with
  | [] => [(id, v)]
  | (k, w) :: rest =>
      if k = id then (id, v) :: rest else (k, w) :: tableInsert rest id v

/-- `HashMap::Erase`: remove every binding of the key (at most one is ever
present). -/
def tableErase (t : List (Nat × Nat)) (id : Nat) : List (Nat × Nat) :=
  match t with
  | [] => []
  | (k, w) :: rest =>
      if k = id then tableErase rest id else (k, w) :: tableErase rest id

/-- A table is well formed when no id is bound twice. -/
def tableWF (t : List (Nat × Nat)) : Prop := (t.map Prod.fst).Nodup

instance (t : List (Nat × Nat)) : Decidable (tableWF t) := by
  unfold tableWF; infer_instance

/-! ### Scene id bookkeeping state

The fields of `Scene` that take part in id allocation
(`scene.cpp`, constructor lines and `GetFreeNodeID` / `GetFreeComponentID` /
`NodeAdded` / `NodeRemoved` / `ComponentAdded` / `ComponentRemoved`).
Entities are opaque handles: attributes, transforms and the child/component
vectors do not influence the id tables, and the recursive re-registration of
a subtree performed by `NodeAdded` is a sequence of the primitive
registrations modelled here. -/

structure SceneState where
  replicatedNodes : List (Nat × Nat)
  localNodes : List (Nat × Nat)
  replicatedComponents : List (Nat × Nat)
  localComponents : List (Nat × Nat)
  replicatedNodeID : Nat
  localNodeID : Nat
  replicatedComponentID : Nat
  localComponentID : Nat
deriving DecidableEq

/-- Log messages emitted by the embedded operations, as abstract tokens. -/
inductive LogMsg where
  | overwritingNode (id : Nat)
  | overwritingComponent (id : Nat)
  | hashCollision (hash : Nat) (requested stored : String)
deriving DecidableEq

/-- The body of the `for (;;)` scan shared by `Scene::GetFreeNodeID` and
`Scene::GetFreeComponentID`: take the current counter value as candidate,
advance the counter (wrapping from `lastId` to `first`), and return the
candidate unless the table contains it, in which case continue with the
advanced counter.  The C++ loop has no other exit; the `fuel` argument counts
loop iterations so that non-termination of the source loop appears as `none`
for every fuel. -/
def freeIdScan (contains : Nat → Bool) (first lastId : Nat) :
    Nat → Nat → Option (Nat × Nat)
  | _, 0 => none
  | cur, fuel + 1 =>
      let next := if cur < lastId then cur + 1 else first
      if contains cur then freeIdScan contains first lastId next fuel
      else some (cur, next)

/-- `Scene::GetFreeNodeID` (scene.cpp lines 826-856): scan the counter of the
requested mode over its range, skipping ids present in the corresponding node
table.  Returns the id and the state with the advanced counter; `none` means
the source loop ran `fuel` iterations without exiting. -/
def GetFreeNodeID (mode : CreateMode) (s : SceneState) (fuel : Nat) :
    Option (Nat × SceneState) :=
  match mode with
  | .REPLICATED =>
      match freeIdScan (fun i => tableContains s.replicatedNodes i)
          FIRST_REPLICATED_ID LAST_REPLICATED_ID s.replicatedNodeID fuel with
      | none => none
      | some (ret, next) => some (ret, { s with replicatedNodeID := next })
  | .LOCAL =>
      match freeIdScan (fun i => tableContains s.localNodes i)
          FIRST_LOCAL_ID LAST_LOCAL_ID s.localNodeID fuel with
      | none => none
      | some (ret, next) => some (ret, { s with localNodeID := next })

/-- `Scene::GetFreeComponentID` (scene.cpp lines 858-888), same shape as
`GetFreeNodeID` over the component tables and counters. -/
def GetFreeComponentID (mode : CreateMode) (s : SceneState) (fuel : Nat) :
    Option (Nat × SceneState) :=
  match mode with
  | .REPLICATED =>
      match freeIdScan (fun i => tableContains s.replicatedComponents i)
          FIRST_REPLICATED_ID LAST_REPLICATED_ID s.replicatedComponentID fuel with
      | none => none
      | some (ret, next) => some (ret, { s with replicatedComponentID := next })
  | .LOCAL =>
      match freeIdScan (fun i => tableContains s.localComponents i)
          FIRST_LOCAL_ID LAST_LOCAL_ID s.localComponentID fuel with
      | none => none
      | some (ret, next) => some (ret, { s with localComponentID := next })

/-- `Scene::NodeRemoved` restricted to its effect on the id tables: erase the
node's id from the table of its replication mode. -/
def NodeRemoved (s : SceneState) (id : Nat) : SceneState :=
  if IsReplicatedID id then
    { s with replicatedNodes := tableErase s.replicatedNodes id }
  else
    { s with localNodes := tableErase s.localNodes id }

/-- `Scene::ComponentRemoved` restricted to its effect on the id tables. -/
def ComponentRemoved (s : SceneState) (id : Nat) : SceneState :=
  if IsReplicatedID id then
    { s with replicatedComponents := tableErase s.replicatedComponents id }
  else
    { s with localComponents := tableErase s.localComponents id }

/-- The registration step shared by all four table branches of
`Scene::NodeAdded` and `Scene::ComponentAdded`: if the table already maps
the id to a different entity, log the overwrite warning and remove that
entity (the `NodeRemoved`/`ComponentRemoved` call erases exactly this id
from this table), then overwrite the binding with the new entity. -/
def registerEntity (t : List (Nat × Nat)) (id entity : Nat)
    (warn : Nat → LogMsg) : List (Nat × Nat) × List LogMsg :=
  match tableFind t id with
  | some old =>
      if old ≠ entity then
        (tableInsert (tableErase t id) id entity, [warn id])
      else (tableInsert t id entity, [])
  | none => (tableInsert t id entity, [])

/-- The id-assignment prologue of `Scene::NodeAdded`: a zero id is replaced
by a fresh replicated id from `GetFreeNodeID(REPLICATED)`. -/
def assignNodeId (s : SceneState) (nodeId fuel : Nat) :
    Option (Nat × SceneState) :=
  if nodeId = 0 then GetFreeNodeID .REPLICATED s fuel else some (nodeId, s)

/-- The id-assignment prologue of `Scene::ComponentAdded`. -/
def assignComponentId (s : SceneState) (compId fuel : Nat) :
    Option (Nat × SceneState) :=
  if compId = 0 then GetFreeComponentID .REPLICATED s fuel
  else some (compId, s)

/-- `Scene::NodeAdded` (scene.cpp lines 890-950) restricted to id
bookkeeping.  `nodeId` is the node's id on entry (`node->GetID()`), `node`
its handle.  Returns the new state, the log, and the id the node ended up
with; `none` only when the free-id scan ran out of fuel. -/
def NodeAdded (s : SceneState) (nodeId : Nat) (node : Nat) (fuel : Nat) :
    Option (SceneState × List LogMsg × Nat) :=
  match assignNodeId s nodeId fuel with
  | none => none
  | some (id, s1) =>
      if IsReplicatedID id then
        let step := registerEntity s1.replicatedNodes id node .overwritingNode
        some ({ s1 with replicatedNodes := step.1 }, step.2, id)
      else
        let step := registerEntity s1.localNodes id node .overwritingNode
        some ({ s1 with localNodes := step.1 }, step.2, id)

/-- `Scene::ComponentAdded` (scene.cpp lines 996-1040) restricted to id
bookkeeping, same shape as `NodeAdded` over the component tables. -/
def ComponentAdded (s : SceneState) (compId : Nat) (comp : Nat) (fuel : Nat) :
    Option (SceneState × List LogMsg × Nat) :=
  match assignComponentId s compId fuel with
  | none => none
  | some (id, s1) =>
      if IsReplicatedID id then
        let step := registerEntity s1.replicatedComponents id comp
          .overwritingComponent
        some ({ s1 with replicatedComponents := step.1 }, step.2, id)
      else
        let step := registerEntity s1.localComponents id comp
          .overwritingComponent
        some ({ s1 with localComponents := step.1 }, step.2, id)

/-- The member-initialiser list of `Scene::Scene()`: empty tables, every
counter at the first id of its range. -/
def initialTables : SceneState :=
  { replicatedNodes := []
    localNodes := []
    replicatedComponents := []
    localComponents := []
    replicatedNodeID := FIRST_REPLICATED_ID
    localNodeID := FIRST_LOCAL_ID
    replicatedComponentID := FIRST_REPLICATED_ID
    localComponentID := FIRST_LOCAL_ID }

/-- Handle used for the scene root itself. -/
def sceneHandle : Nat := 0

/-- The body of `Scene::Scene()`: `SetID(GetFreeNodeID(REPLICATED))` followed
by `NodeAdded(this)`.  Returns the resulting state and the scene's own id. -/
def sceneNew (fuel : Nat) : Option (SceneState × Nat) :=
  (GetFreeNodeID .REPLICATED initialTables fuel).bind fun p =>
    (NodeAdded p.2 p.1 sceneHandle fuel).map fun q => (q.1, p.1)

/-- `Scene::GetNode`: look the id up in the table matching its replication
mode. -/
def GetNode (s : SceneState) (id : Nat) : Option Nat :=
  if IsReplicatedID id then tableFind s.replicatedNodes id
  else tableFind s.localNodes id

/-- `Scene::GetComponent`: component-table counterpart of `GetNode`. -/
def GetComponent (s : SceneState) (id : Nat) : Option Nat :=
  if IsReplicatedID id then tableFind s.replicatedComponents id
  else tableFind s.localComponents id

/-- The node table a mode selects (replicated ids go to `replicatedNodes_`,
local ids to `localNodes_`). -/
def nodeTable (s : SceneState) : CreateMode → List (Nat × Nat)
  | .REPLICATED => s.replicatedNodes
  | .LOCAL => s.localNodes

/-- The component table a mode selects. -/
def componentTable (s : SceneState) : CreateMode → List (Nat × Nat)
  | .REPLICATED => s.replicatedComponents
  | .LOCAL => s.localComponents

/-- The node id counter of a mode. -/
def nodeCounter (s : SceneState) : CreateMode → Nat
  | .REPLICATED => s.replicatedNodeID
  | .LOCAL => s.localNodeID

/-- The component id counter of a mode. -/
def componentCounter (s : SceneState) : CreateMode → Nat
  | .REPLICATED => s.replicatedComponentID
  | .LOCAL => s.localComponentID

/-- First id of the range of a mode. -/
def rangeFirst : CreateMode → Nat
  | .REPLICATED => FIRST_REPLICATED_ID
  | .LOCAL => FIRST_LOCAL_ID

/-- Last id of the range of a mode. -/
def rangeLast : CreateMode → Nat
  | .REPLICATED => LAST_REPLICATED_ID
  | .LOCAL => LAST_LOCAL_ID

/-- Number of ids in the range of a mode: enough fuel for the scan to visit
every id of the range once. -/
def rangeSize (mode : CreateMode) : Nat := rangeLast mode + 1 - rangeFirst mode

/-- All four id tables are well formed: no id bound twice in any of them,
i.e. each table maps each id to at most one live entity. -/
def sceneWF (s : SceneState) : Prop :=
  tableWF s.replicatedNodes ∧ tableWF s.localNodes ∧
    tableWF s.replicatedComponents ∧ tableWF s.localComponents

instance (s : SceneState) : Decidable (sceneWF s) := by
  unfold sceneWF; infer_instance

/-- The states reachable from a freshly constructed scene by any sequence of
node/component additions (explicit or auto-assigned ids) and removals. -/
inductive Reachable : SceneState → Prop where
  | init (s : SceneState) (id fuel : Nat) (h : sceneNew fuel = some (s, id)) :
      Reachable s
  | nodeAdded (s s' : SceneState) (nodeId node fuel : Nat)
      (log : List LogMsg) (aid : Nat) (hs : Reachable s)
      (h : NodeAdded s nodeId node fuel = some (s', log, aid)) : Reachable s'
  | nodeRemoved (s : SceneState) (id : Nat) (hs : Reachable s) :
      Reachable (NodeRemoved s id)
  | componentAdded (s s' : SceneState) (compId comp fuel : Nat)
      (log : List LogMsg) (aid : Nat) (hs : Reachable s)
      (h : ComponentAdded s compId comp fuel = some (s', log, aid)) :
      Reachable s'
  | componentRemoved (s : SceneState) (id : Nat) (hs : Reachable s) :
      Reachable (ComponentRemoved s id)

/-! ### Time scale and update parameters -/

/-- Modelled from the spec: `M_EPSILON` is declared in the missing
`math_defs.h`; the claim and the code use it as the smallest admissible
strictly positive time scale.  Upstream value `0.000001f`. -/
def M_EPSILON : ℚ := 1 / 1000000

/-- The body of `Scene::SetTimeScale` (scene.cpp line 632):
`timeScale_ = Max(scale, M_EPSILON)`. -/
def SetTimeScale (scale : ℚ) : ℚ := max scale M_EPSILON

/-- The body of `Scene::SetSmoothingConstant` (scene.cpp line 638). -/
def SetSmoothingConstant (constant : ℚ) : ℚ := max constant M_EPSILON

/-- The body of `Scene::SetAsyncLoadingMs` (scene.cpp line 650):
`asyncLoadingMs_ = Max(ms, 1)`. -/
def SetAsyncLoadingMs (ms : Int) : Int := max ms 1

/-- The scaling step at the top of `Scene::Update` (scene.cpp line 753):
`timeStep *= timeScale_`. -/
def scaledTimeStep (timeStep timeScale : ℚ) : ℚ := timeStep * timeScale

/-- `Scene::GetAsyncProgress` (scene.cpp lines 728-733): `1` when no async
load is active or both totals are zero, otherwise the ratio of loaded to
total work items. -/
def GetAsyncProgress (asyncLoading : Bool)
    (loadedNodes totalNodes loadedResources totalResources : Nat) : ℚ :=
  if !asyncLoading || totalNodes + totalResources = 0 then 1
  else ((loadedNodes : ℚ) + (loadedResources : ℚ)) /
    ((totalNodes : ℚ) + (totalResources : ℚ))

/-! ### String hash registry (`core/string_hash_register.cpp`) -/

/-- ASCII `tolower` on a character code. -/
def lowerCode (c : Nat) : Nat := if 65 ≤ c ∧ c ≤ 90 then c + 32 else c

/-- `String::Compare(str, false) == 0`: case-insensitive string equality.
`str.cpp` is not in the provided sources; the semantics of the
`caseSensitive = false` comparison used by the register is comparison after
lowercasing. -/
def eqIgnoreCase (a b : String) : Bool :=
  a.data.map (fun c => lowerCode c.toNat) ==
    b.data.map (fun c => lowerCode c.toNat)

/-- Modelled from the spec: `StringHash::Calculate` (`string_hash.h/cpp`,
not in the provided sources) is the deterministic SDBM hash of the
lowercased name, truncated to 32 bits — the upstream convention, matching
the register's own case-insensitive collision comparison. -/
def stringHash (s : String) : Nat :=
  s.data.foldl
    (fun h c => (lowerCode c.toNat + h * 65536 + h * 64 - h) % 2 ^ 32) 0

/-- The registry map `map_`, an association list from hash to stored
string. -/
def regFind (m : List (Nat × String)) (h : Nat) : Option String :=
  match m with
  | [] => none
  | (k, v) :: rest => if k = h then some v else regFind rest h

/-- `StringHashRegister::RegisterString(hash, string)`
(string_hash_register.cpp lines 32-51): if the hash is absent, store the
pair; if present with a string that differs case-insensitively, log a
collision warning and keep the stored string; in every case return the
requested hash. -/
def RegisterStringHash (m : List (Nat × String)) (h : Nat) (s : String) :
    List (Nat × String) × List LogMsg × Nat :=
  match regFind m h with
  | none => (m ++ [(h, s)], [], h)
  | some stored =>
      if eqIgnoreCase stored s then (m, [], h)
      else (m, [.hashCollision h s stored], h)

/-- `StringHashRegister::RegisterString(string)`
(string_hash_register.cpp lines 53-57): hash the name and defer to the
two-argument overload. -/
def RegisterString (m : List (Nat × String)) (s : String) :
    List (Nat × String) × List LogMsg × Nat :=
  RegisterStringHash m (stringHash s) s

/-! ### StopAsyncLoading (`scene.cpp` lines 497-507)

The fields of `AsyncProgress` and the scene fields that
`Scene::StopAsyncLoading` touches, plus the live node table to express that
already-materialized nodes survive the stop.  Shared pointers are `Option`
handles (`none` = released), the resolver maps are the association lists the
resolver remembered. -/

structure AsyncProgressFields where
  file_ : Option Nat
  xmlFile_ : Option Nat
  jsonFile_ : Option Nat
  xmlElement_ : Option Nat
  jsonIndex_ : Nat
  resources_ : List Nat
  loadedNodes_ : Nat
  totalNodes_ : Nat
  loadedResources_ : Nat
  totalResources_ : Nat
deriving DecidableEq

structure AsyncSceneState where
  asyncLoading_ : Bool
  asyncProgress_ : AsyncProgressFields
  resolverNodes_ : List (Nat × Nat)
  resolverComponents_ : List (Nat × Nat)
  liveNodes_ : List (Nat × Nat)
deriving DecidableEq

/-- `Scene::StopAsyncLoading` exactly as written: clear the flag, release the
stream/file references, reset the XML cursor and JSON index, clear the
pending resource set, and reset the resolver.  No other field is touched. -/
def StopAsyncLoading (s : AsyncSceneState) : AsyncSceneState :=
  { s with
      asyncLoading_ := false
      asyncProgress_ :=
        { s.asyncProgress_ with
            file_ := none
            xmlFile_ := none
            jsonFile_ := none
            xmlElement_ := none
            jsonIndex_ := 0
            resources_ := [] }
      resolverNodes_ := []
      resolverComponents_ := [] }

/-! ### Async structural loading (`scene.cpp` `LoadAsync` /
`UpdateAsyncLoading` / `FinishAsyncLoading` vs the synchronous `Scene::Load`)

The binary scene stream is modelled from the spec: `Node::Load`
(`node.cpp` is not in the provided sources) reads the node's attributes and
components, then a child count and recursively each child subtree; a stream
is therefore a root payload plus the ordered list of root-level child
subtrees, each child an (id, payload) record standing for its full
sub-hierarchy.  Loading a child materializes exactly its record and registers
its id with the resolver. -/

structure ChildNode where
  id : Nat
  payload : Nat
deriving DecidableEq

structure SceneStream where
  rootId : Nat
  rootData : Nat
  children : List ChildNode
deriving DecidableEq

/-- The node/component tree a load produces: the root's own data, the
root-level children in order, and whether the resolver pass ran. -/
structure LoadedScene where
  rootData : Nat
  children : List ChildNode
  resolved : Bool
deriving DecidableEq

/-- `Scene::Load` (scene.cpp lines 95-120) on a well-formed binary stream:
clear, read the whole tree via `Node::Load`, then finish (resolver pass and
post-load hooks run inside `Node::Load`/`FinishLoading` before it
returns). -/
def syncLoad (st : SceneStream) : LoadedScene :=
  { rootData := st.rootData, children := st.children, resolved := true }

/-- Scene events sent over the event bus by `Scene::Update` and the async
loader. -/
inductive SceneEvent where
  | sceneUpdate
  | attributeAnimationUpdate
  | sceneSubsystemUpdate
  | updateSmoothing
  | scenePostUpdate
  | asyncLoadProgress
  | asyncLoadFinished
deriving DecidableEq

/-- The five per-frame lifecycle notifications, in the order `Scene::Update`
(scene.cpp lines 741-795) sends them. -/
def lifecycleSequence : List SceneEvent :=
  [.sceneUpdate, .attributeAnimationUpdate, .sceneSubsystemUpdate,
   .updateSmoothing, .scenePostUpdate]

/-- Whether an event is one of the five per-frame lifecycle notifications. -/
def SceneEvent.isLifecycle : SceneEvent → Bool
  | .sceneUpdate => true
  | .attributeAnimationUpdate => true
  | .sceneSubsystemUpdate => true
  | .updateSmoothing => true
  | .scenePostUpdate => true
  | .asyncLoadProgress => false
  | .asyncLoadFinished => false

/-- The async-load progress state driven by `UpdateAsyncLoading`, for a
binary structural load: the counters, the not-yet-consumed suffix of the
stream (the file position), the children materialized into the live tree so
far, the root data read synchronously by `LoadAsync`, and the resolver
flag. -/
structure AsyncLoadState where
  asyncLoading : Bool
  mode : LoadMode
  loadedNodes : Nat
  totalNodes : Nat
  loadedResources : Nat
  totalResources : Nat
  pending : List ChildNode
  sceneChildren : List ChildNode
  rootData : Option Nat
  resolved : Bool
deriving DecidableEq

/-- `Scene::LoadAsync(file, LOAD_SCENE)` (scene.cpp lines 289-359) on a
well-formed binary stream: stop any previous load, clear the scene, set the
flag, zero the counters, read the root id and root-level
attributes/components synchronously, and record the total child count from
the stream (`ReadVLE`).  `LOAD_SCENE` skips resource preloading, so both
resource counters stay zero. -/
def loadAsync (st : SceneStream) : AsyncLoadState :=
  { asyncLoading := true
    mode := .LOAD_SCENE
    loadedNodes := 0
    totalNodes := st.children.length
    loadedResources := 0
    totalResources := 0
    pending := st.children
    sceneChildren := []
    rootData := some st.rootData
    resolved := false }

/-- `Scene::FinishAsyncLoading` (scene.cpp lines 1243-1259): for a structural
load run the resolver and post-load hooks, then `StopAsyncLoading` (which
clears the flag), then send `E_ASYNCLOADFINISHED`. -/
def finishAsyncLoading (a : AsyncLoadState) : AsyncLoadState :=
  { a with
      asyncLoading := false
      resolved := a.mode.isStructural
      pending := [] }

/-- The `for (;;)` loop of `Scene::UpdateAsyncLoading` (scene.cpp lines
1186-1227).  `fuel` is the number of child nodes the per-frame time budget
still allows: the timer check sits after a node is consumed, so a call always
loads at least one node when any remain, and `fuel = 0` is the `break` that
sends `E_ASYNCLOADPROGRESS`.  When all nodes are consumed the loop finishes
the load and returns after `E_ASYNCLOADFINISHED`. -/
def processNodes : Nat → AsyncLoadState → AsyncLoadState × List SceneEvent
  | 0, a => (a, [.asyncLoadProgress])
  | fuel + 1, a =>
      if a.totalNodes ≤ a.loadedNodes then
        (finishAsyncLoading a, [.asyncLoadFinished])
      else
        match a.pending with
        | [] => (a, [])
        | c :: rest =>
            processNodes fuel
              { a with
                  pending := rest
                  sceneChildren := a.sceneChildren ++ [c]
                  loadedNodes := a.loadedNodes + 1 }

/-- `Scene::UpdateAsyncLoading` (scene.cpp lines 1177-1241): if background
resource loads are still outstanding do nothing, otherwise run the node loop
under the time budget. -/
def updateAsyncLoading (slice : Nat) (a : AsyncLoadState) :
    AsyncLoadState × List SceneEvent :=
  if a.loadedResources < a.totalResources then (a, [])
  else processNodes slice a

/-- `Scene::Update(timeStep)` (scene.cpp lines 741-795) at the granularity of
the events it sends: when an async load is active it first performs one quota
of loading work, then returns early when the load is structural
(`mode_ > LOAD_RESOURCES_ONLY`); otherwise the five lifecycle notifications
follow in their fixed order. -/
def sceneUpdate (slice : Nat) (a : AsyncLoadState) :
    AsyncLoadState × List SceneEvent :=
  if a.asyncLoading then
    let step := updateAsyncLoading slice a
    if a.mode.isStructural then step
    else (step.1, step.2 ++ lifecycleSequence)
  else (a, lifecycleSequence)

/-- Repeated per-frame `UpdateAsyncLoading` calls, one per schedule entry;
each entry is the node quota the frame's time budget admits.  The driver
stops calling once the flag is down, as the engine's update loop does. -/
def runAsync : List Nat → AsyncLoadState → AsyncLoadState
  | [], a => a
  | slice :: rest, a =>
      if a.asyncLoading then runAsync rest (updateAsyncLoading slice a).1
      else a

/-- The tree view of an async load state, for comparison with a synchronous
load. -/
def asyncResultScene (a : AsyncLoadState) : LoadedScene :=
  { rootData := a.rootData.getD 0
    children := a.sceneChildren
    resolved := a.resolved }

/-- A load reached the Idle state with the same tree a synchronous load of
the stream produces. -/
def asyncDone (st : SceneStream) (a : AsyncLoadState) : Prop :=
  a.asyncLoading = false ∧ asyncResultScene a = syncLoad st

/-- The invariant of an in-progress structural binary async load of stream
`st`: the flag is up, no resources are pending (`LOAD_SCENE` skips
preloading), the already-materialized children followed by the unread suffix
of the stream reconstruct the stream's child list, and the counters track
the split. -/
def asyncWF (st : SceneStream) (a : AsyncLoadState) : Prop :=
  a.asyncLoading = true ∧ a.mode = .LOAD_SCENE ∧
    a.loadedResources = 0 ∧ a.totalResources = 0 ∧
    a.totalNodes = st.children.length ∧
    a.loadedNodes + a.pending.length = a.totalNodes ∧
    a.sceneChildren ++ a.pending = st.children ∧
    a.rootData = some st.rootData ∧ a.resolved = false

/-- The scene state reached by `Scene::Scene()`: the root registered under
the first replicated id, the replicated node counter advanced past it. -/
def freshScene : SceneState :=
  { replicatedNodes := [(FIRST_REPLICATED_ID, sceneHandle)]
    localNodes := []
    replicatedComponents := []
    localComponents := []
    replicatedNodeID := FIRST_REPLICATED_ID + 1
    localNodeID := FIRST_LOCAL_ID
    replicatedComponentID := FIRST_REPLICATED_ID
    localComponentID := FIRST_LOCAL_ID }

/-- The auto-assigned id of the first child created on a freshly constructed
scene with id argument `0` in replicated mode: the child enters the scene
with id zero and `Scene::NodeAdded` assigns it `GetFreeNodeID(REPLICATED)`
(scene.cpp lines 902-908).  One unit of scan fuel suffices on a fresh
scene. -/
def firstChildAutoReplicatedId : Option Nat :=
  match sceneNew 1 with
  | none => none
  | some (s, _) =>
      match NodeAdded s 0 1 1 with
      | none => none
      | some (_, _, aid) => some aid

/-- Example scene state for concrete witnesses: id 5 bound to node 1 in the
replicated node table and to component 1 in the replicated component
table. -/
def collisionState : SceneState :=
  { initialTables with
      replicatedNodes := [(5, 1)]
      replicatedComponents := [(5, 1)] }

/-- Example async scene state for concrete counterexamples: an in-progress
load with nonzero progress counters, a held file, pending resources, a
non-empty resolver and two live nodes. -/
def inProgressAsyncState : AsyncSceneState :=
  { asyncLoading_ := true
    asyncProgress_ :=
      { file_ := some 1
        xmlFile_ := none
        jsonFile_ := none
        xmlElement_ := none
        jsonIndex_ := 2
        resources_ := [7]
        loadedNodes_ := 3
        totalNodes_ := 5
        loadedResources_ := 2
        totalResources_ := 4 }
    resolverNodes_ := [(1, 1)]
    resolverComponents_ := []
    liveNodes_ := [(1, 0), (2, 7)] }

/-- Example async-load state for the C3 witness: a pure resource-prefetch
load (`LOAD_RESOURCES_ONLY`) with background resource loads still pending,
so `Scene::Update` performs its loading quota and then continues with the
normal lifecycle events. -/
def prefetchState : AsyncLoadState :=
  { asyncLoading := true
    mode := .LOAD_RESOURCES_ONLY
    loadedNodes := 0
    totalNodes := 0
    loadedResources := 1
    totalResources := 3
    pending := []
    sceneChildren := []
    rootData := none
    resolved := false }

end Dviglo

namespace Dviglo

/-! ## Theorems -/

/-! ### Lookup table lemmas -/

theorem tableFind_cons (k v : Nat) (rest : List (Nat × Nat)) (id : Nat) :
    tableFind ((k, v) :: rest) id =
      if k = id then some v else tableFind rest id := rfl

theorem tableInsert_cons (k v : Nat) (rest : List (Nat × Nat)) (id w : Nat) :
    tableInsert ((k, v) :: rest) id w =
      if k = id then (id, w) :: rest else (k, v) :: tableInsert rest id w := rfl

theorem tableErase_cons (k v : Nat) (rest : List (Nat × Nat)) (id : Nat) :
    tableErase ((k, v) :: rest) id =
      if k = id then tableErase rest id else (k, v) :: tableErase rest id := rfl

theorem tableFind_eq_none {t : List (Nat × Nat)} {id : Nat} :
    tableFind t id = none ↔ id ∉ t.map Prod.fst := by
  induction t with
  | nil => simp [tableFind]
  | cons p rest ih =>
      obtain ⟨k, v⟩ := p
      rw [tableFind_cons]
      by_cases hk : k = id
      · subst hk; simp
      · simp [hk, ih, Ne.symm hk]

theorem tableContains_false_iff {t : List (Nat × Nat)} {id : Nat} :
    tableContains t id = false ↔ id ∉ t.map Prod.fst := by
  rw [← tableFind_eq_none]
  unfold tableContains
  cases tableFind t id <;> simp

theorem mem_keys_tableInsert {t : List (Nat × Nat)} {id v k : Nat} :
    k ∈ (tableInsert t id v).map Prod.fst ↔ k = id ∨ k ∈ t.map Prod.fst := by
  induction t with
  | nil => simp [tableInsert]
  | cons p rest ih =>
      obtain ⟨k', v'⟩ := p
      rw [tableInsert_cons]
      by_cases hk : k' = id
      · rw [if_pos hk]
        subst hk
        simp only [List.map_cons, List.mem_cons]
        tauto
      · rw [if_neg hk]
        simp only [List.map_cons, List.mem_cons, ih]
        tauto

theorem mem_keys_tableErase {t : List (Nat × Nat)} {id k : Nat} :
    k ∈ (tableErase t id).map Prod.fst → k ∈ t.map Prod.fst := by
  induction t with
  | nil => intro h; simp [tableErase] at h
  | cons p rest ih =>
      obtain ⟨k', v'⟩ := p
      rw [tableErase_cons]
      by_cases hk : k' = id
      · rw [if_pos hk]
        intro h
        exact List.mem_cons_of_mem _ (ih h)
      · rw [if_neg hk]
        simp only [List.map_cons, List.mem_cons]
        rintro (h | h)
        · exact Or.inl h
        · exact Or.inr (ih h)

theorem not_mem_keys_tableErase_self {t : List (Nat × Nat)} {id : Nat} :
    id ∉ (tableErase t id).map Prod.fst := by
  induction t with
  | nil => simp [tableErase]
  | cons p rest ih =>
      obtain ⟨k', v'⟩ := p
      rw [tableErase_cons]
      by_cases hk : k' = id
      · rw [if_pos hk]; exact ih
      · rw [if_neg hk]
        simp only [List.map_cons, List.mem_cons]
        rintro (h | h)
        · exact hk h.symm
        · exact ih h

theorem tableWF_tableInsert {t : List (Nat × Nat)} (id v : Nat)
    (h : tableWF t) : tableWF (tableInsert t id v) := by
  induction t with
  | nil => simp [tableWF, tableInsert]
  | cons p rest ih =>
      obtain ⟨k, w⟩ := p
      simp only [tableWF, List.map_cons, List.nodup_cons] at h
      rw [tableInsert_cons]
      by_cases hk : k = id
      · rw [if_pos hk]
        simp only [tableWF, List.map_cons, List.nodup_cons]
        exact ⟨hk ▸ h.1, h.2⟩
      · rw [if_neg hk]
        simp only [tableWF, List.map_cons, List.nodup_cons]
        refine ⟨?_, ih h.2⟩
        intro hmem
        rcases mem_keys_tableInsert.mp hmem with h1 | h1
        · exact hk h1
        · exact h.1 h1

theorem tableWF_tableErase {t : List (Nat × Nat)} (id : Nat)
    (h : tableWF t) : tableWF (tableErase t id) := by
  induction t with
  | nil => simp [tableWF, tableErase]
  | cons p rest ih =>
      obtain ⟨k, w⟩ := p
      simp only [tableWF, List.map_cons, List.nodup_cons] at h
      rw [tableErase_cons]
      by_cases hk : k = id
      · rw [if_pos hk]; exact ih h.2
      · rw [if_neg hk]
        simp only [tableWF, List.map_cons, List.nodup_cons]
        exact ⟨fun hmem => h.1 (mem_keys_tableErase hmem), ih h.2⟩

theorem tableFind_tableInsert_self (t : List (Nat × Nat)) (id v : Nat) :
    tableFind (tableInsert t id v) id = some v := by
  induction t with
  | nil => simp [tableInsert, tableFind]
  | cons p rest ih =>
      obtain ⟨k, w⟩ := p
      rw [tableInsert_cons]
      by_cases hk : k = id
      · rw [if_pos hk, tableFind_cons, if_pos rfl]
      · rw [if_neg hk, tableFind_cons, if_neg hk]
        exact ih

theorem registerEntity_WF {t : List (Nat × Nat)} (id e : Nat)
    (warn : Nat → LogMsg) (h : tableWF t) :
    tableWF (registerEntity t id e warn).1 := by
  unfold registerEntity
  cases hf : tableFind t id with
  | none => exact tableWF_tableInsert id e h
  | some old =>
      by_cases he : old = e
      · simp only [he, ne_eq, not_true_eq_false, if_false]
        exact tableWF_tableInsert id e h
      · simp only [ne_eq, he, not_false_eq_true, if_true]
        exact tableWF_tableInsert id e (tableWF_tableErase id h)

theorem registerEntity_find_self (t : List (Nat × Nat)) (id e : Nat)
    (warn : Nat → LogMsg) :
    tableFind (registerEntity t id e warn).1 id = some e := by
  unfold registerEntity
  cases hf : tableFind t id with
  | none => exact tableFind_tableInsert_self t id e
  | some old =>
      by_cases he : old = e
      · simp only [he, ne_eq, not_true_eq_false, if_false]
        exact tableFind_tableInsert_self t id e
      · simp only [ne_eq, he, not_false_eq_true, if_true]
        exact tableFind_tableInsert_self (tableErase t id) id e

theorem registerEntity_log_overwrite {t : List (Nat × Nat)} {id e old : Nat}
    (warn : Nat → LogMsg) (hf : tableFind t id = some old) (hne : old ≠ e) :
    (registerEntity t id e warn).2 = [warn id] := by
  unfold registerEntity
  rw [hf]
  simp [hne]

/-! ### Free-id scan lemmas -/

theorem freeIdScan_succ (contains : Nat → Bool) (first lastId cur n : Nat) :
    freeIdScan contains first lastId cur (n + 1) =
      if contains cur then
        freeIdScan contains first lastId
          (if cur < lastId then cur + 1 else first) n
      else some (cur, if cur < lastId then cur + 1 else first) := rfl

theorem freeIdScan_sound (contains : Nat → Bool) (first lastId : Nat) :
    ∀ fuel cur ret next,
      freeIdScan contains first lastId cur fuel = some (ret, next) →
      contains ret = false := by
  intro fuel
  induction fuel with
  | zero => intro cur ret next h; exact Option.noConfusion h
  | succ n ih =>
      intro cur ret next h
      rw [freeIdScan_succ] at h
      cases hc : contains cur with
      | true =>
          rw [hc, if_pos rfl] at h
          exact ih _ _ _ h
      | false =>
          rw [hc] at h
          simp only [Bool.false_eq_true, if_false, Option.some.injEq,
            Prod.mk.injEq] at h
          rw [← h.1]
          exact hc

/-- Distance from `cur` to `f` along the wrapping forward scan order of the
range `[first, lastId]`. -/
def wrapDist (first lastId f cur : Nat) : Nat :=
  if cur ≤ f then f - cur else lastId + 1 - cur + (f - first)

theorem wrapDist_step (first lastId f cur : Nat) (hf1 : first ≤ f)
    (hf2 : f ≤ lastId) (_h1 : first ≤ cur) (h2 : cur ≤ lastId)
    (hne : cur ≠ f) :
    wrapDist first lastId f (if cur < lastId then cur + 1 else first) + 1 =
      wrapDist first lastId f cur := by
  by_cases hlt : cur < lastId
  · rw [if_pos hlt]
    unfold wrapDist
    split_ifs <;> omega
  · rw [if_neg hlt]
    unfold wrapDist
    split_ifs <;> omega

theorem freeIdScan_complete (contains : Nat → Bool) (first lastId f : Nat)
    (hf1 : first ≤ f) (hf2 : f ≤ lastId) (hfree : contains f = false) :
    ∀ fuel cur, first ≤ cur → cur ≤ lastId →
      wrapDist first lastId f cur < fuel →
      ∃ ret next,
        freeIdScan contains first lastId cur fuel = some (ret, next) := by
  intro fuel
  induction fuel with
  | zero => intro cur _ _ hd; omega
  | succ n ih =>
      intro cur h1 h2 hd
      cases hc : contains cur with
      | false =>
          exact ⟨cur, if cur < lastId then cur + 1 else first,
            by rw [freeIdScan_succ, hc]; simp⟩
      | true =>
          have hne : cur ≠ f := by
            intro e; rw [e, hfree] at hc; cases hc
          have hstep := wrapDist_step first lastId f cur hf1 hf2 h1 h2 hne
          have hn1 : first ≤ if cur < lastId then cur + 1 else first := by
            split_ifs <;> omega
          have hn2 : (if cur < lastId then cur + 1 else first) ≤ lastId := by
            split_ifs <;> omega
          obtain ⟨ret, next, hret⟩ :=
            ih (if cur < lastId then cur + 1 else first) hn1 hn2 (by omega)
          exact ⟨ret, next, by rw [freeIdScan_succ, hc, if_pos rfl]; exact hret⟩

theorem freeIdScan_saturated_none (first lastId : Nat)
    (contains : Nat → Bool)
    (hsat : ∀ i, first ≤ i → i ≤ lastId → contains i = true)
    (hfl : first ≤ lastId) :
    ∀ fuel cur, first ≤ cur → cur ≤ lastId →
      freeIdScan contains first lastId cur fuel = none := by
  intro fuel
  induction fuel with
  | zero => intro cur _ _; rfl
  | succ n ih =>
      intro cur h1 h2
      rw [freeIdScan_succ, hsat cur h1 h2, if_pos rfl]
      by_cases hlt : cur < lastId
      · rw [if_pos hlt]
        exact ih (cur + 1) (by omega) (by omega)
      · rw [if_neg hlt]
        exact ih first le_rfl hfl

theorem GetFreeNodeID_eq (mode : CreateMode) (s : SceneState) (fuel : Nat) :
    GetFreeNodeID mode s fuel =
      match freeIdScan (fun i => tableContains (nodeTable s mode) i)
          (rangeFirst mode) (rangeLast mode) (nodeCounter s mode) fuel with
      | none => none
      | some (ret, next) =>
          some (ret, match mode with
            | .REPLICATED => { s with replicatedNodeID := next }
            | .LOCAL => { s with localNodeID := next }) := by
  cases mode <;> rfl

theorem GetFreeComponentID_eq (mode : CreateMode) (s : SceneState)
    (fuel : Nat) :
    GetFreeComponentID mode s fuel =
      match freeIdScan (fun i => tableContains (componentTable s mode) i)
          (rangeFirst mode) (rangeLast mode) (componentCounter s mode) fuel with
      | none => none
      | some (ret, next) =>
          some (ret, match mode with
            | .REPLICATED => { s with replicatedComponentID := next }
            | .LOCAL => { s with localComponentID := next }) := by
  cases mode <;> rfl

/-- C2 counterexample: the claim asserts the free-id scan terminates on every
scene state by detecting a fully-saturated range.  It does not: the scan
embedded from the `for (;;)` loop of `Scene::GetFreeNodeID`, run over the
replicated id range with every id of the range in use, exits for no amount
of fuel — the source loop has no saturation check and never terminates. -/
theorem C2_counterexample :
    ¬ ∃ fuel ret next,
        freeIdScan (fun _ => true) FIRST_REPLICATED_ID LAST_REPLICATED_ID
          FIRST_REPLICATED_ID fuel = some (ret, next) := by
  rintro ⟨fuel, ret, next, h⟩
  rw [freeIdScan_saturated_none FIRST_REPLICATED_ID LAST_REPLICATED_ID _
    (fun _ _ _ => rfl) (by decide) fuel FIRST_REPLICATED_ID le_rfl
    (by decide)] at h
  exact Option.noConfusion h

/-- C2 (amended): `Scene::GetFreeNodeID` and `Scene::GetFreeComponentID`
terminate on every scene state in which at least one id of the scanned range
is unused — with fuel equal to the range size the wrapping scan returns an
id not present in the corresponding table; the code has no saturation check,
so on a fully saturated range the loop never exits (see the
counterexample). -/
theorem C2_free_id_scan_terminates_when_unsaturated (s : SceneState)
    (mode : CreateMode) :
    ((rangeFirst mode ≤ nodeCounter s mode ∧
        nodeCounter s mode ≤ rangeLast mode ∧
        ∃ i, rangeFirst mode ≤ i ∧ i ≤ rangeLast mode ∧
          tableContains (nodeTable s mode) i = false) →
      ∃ id s', GetFreeNodeID mode s (rangeSize mode) = some (id, s') ∧
        tableContains (nodeTable s mode) id = false) ∧
    ((rangeFirst mode ≤ componentCounter s mode ∧
        componentCounter s mode ≤ rangeLast mode ∧
        ∃ i, rangeFirst mode ≤ i ∧ i ≤ rangeLast mode ∧
          tableContains (componentTable s mode) i = false) →
      ∃ id s', GetFreeComponentID mode s (rangeSize mode) = some (id, s') ∧
        tableContains (componentTable s mode) id = false) := by
  constructor
  · rintro ⟨hc1, hc2, f, hf1, hf2, hfree⟩
    have hd : wrapDist (rangeFirst mode) (rangeLast mode) f
        (nodeCounter s mode) < rangeSize mode := by
      unfold wrapDist rangeSize
      split_ifs <;> omega
    obtain ⟨ret, next, hret⟩ :=
      freeIdScan_complete (fun i => tableContains (nodeTable s mode) i)
        (rangeFirst mode) (rangeLast mode) f hf1 hf2 hfree
        (rangeSize mode) (nodeCounter s mode) hc1 hc2 hd
    cases mode with
    | REPLICATED =>
        exact ⟨ret, { s with replicatedNodeID := next },
          by rw [GetFreeNodeID_eq, hret], freeIdScan_sound _ _ _ _ _ _ _ hret⟩
    | LOCAL =>
        exact ⟨ret, { s with localNodeID := next },
          by rw [GetFreeNodeID_eq, hret], freeIdScan_sound _ _ _ _ _ _ _ hret⟩
  · rintro ⟨hc1, hc2, f, hf1, hf2, hfree⟩
    have hd : wrapDist (rangeFirst mode) (rangeLast mode) f
        (componentCounter s mode) < rangeSize mode := by
      unfold wrapDist rangeSize
      split_ifs <;> omega
    obtain ⟨ret, next, hret⟩ :=
      freeIdScan_complete (fun i => tableContains (componentTable s mode) i)
        (rangeFirst mode) (rangeLast mode) f hf1 hf2 hfree
        (rangeSize mode) (componentCounter s mode) hc1 hc2 hd
    cases mode with
    | REPLICATED =>
        exact ⟨ret, { s with replicatedComponentID := next },
          by rw [GetFreeComponentID_eq, hret], freeIdScan_sound _ _ _ _ _ _ _ hret⟩
    | LOCAL =>
        exact ⟨ret, { s with localComponentID := next },
          by rw [GetFreeComponentID_eq, hret], freeIdScan_sound _ _ _ _ _ _ _ hret⟩

/-- Witness for the amended C2 theorem on a freshly initialised scene
state. -/
theorem C2_free_id_scan_witness :
    ∃ id s',
      GetFreeNodeID .REPLICATED initialTables (rangeSize .REPLICATED) =
        some (id, s') ∧
      tableContains (nodeTable initialTables .REPLICATED) id = false :=
  (C2_free_id_scan_terminates_when_unsaturated initialTables .REPLICATED).1
    ⟨by decide, by decide, 1, by decide, by decide, by decide⟩

/-- C5: adding a node (or component) with an explicit id already mapped to a
different live entity of the same replication mode never fails: the add
returns the new state (last-writer-wins), exactly one overwrite warning is
logged, and the lookup table afterwards maps the id to the newly added
entity. -/
theorem C5_explicit_id_collision_last_writer_wins (s : SceneState)
    (id newH oldH fuel : Nat) (hid : id ≠ 0) (hne : oldH ≠ newH) :
    (GetNode s id = some oldH →
      ∃ s' log, NodeAdded s id newH fuel = some (s', log, id) ∧
        log = [LogMsg.overwritingNode id] ∧ GetNode s' id = some newH) ∧
    (GetComponent s id = some oldH →
      ∃ s' log, ComponentAdded s id newH fuel = some (s', log, id) ∧
        log = [LogMsg.overwritingComponent id] ∧
        GetComponent s' id = some newH) := by
  constructor
  · intro hfind
    unfold GetNode at hfind
    simp only [NodeAdded, assignNodeId, if_neg hid]
    cases hrep : IsReplicatedID id with
    | true =>
        rw [if_pos hrep] at hfind
        simp only [hrep, if_true]
        refine ⟨_, _, rfl, ?_, ?_⟩
        · exact registerEntity_log_overwrite _ hfind hne
        · unfold GetNode
          simp only [hrep, if_true]
          exact registerEntity_find_self _ _ _ _
    | false =>
        rw [if_neg (by simp [hrep])] at hfind
        simp only [hrep, Bool.false_eq_true, if_false]
        refine ⟨_, _, rfl, ?_, ?_⟩
        · exact registerEntity_log_overwrite _ hfind hne
        · unfold GetNode
          simp only [hrep, Bool.false_eq_true, if_false]
          exact registerEntity_find_self _ _ _ _
  · intro hfind
    unfold GetComponent at hfind
    simp only [ComponentAdded, assignComponentId, if_neg hid]
    cases hrep : IsReplicatedID id with
    | true =>
        rw [if_pos hrep] at hfind
        simp only [hrep, if_true]
        refine ⟨_, _, rfl, ?_, ?_⟩
        · exact registerEntity_log_overwrite _ hfind hne
        · unfold GetComponent
          simp only [hrep, if_true]
          exact registerEntity_find_self _ _ _ _
    | false =>
        rw [if_neg (by simp [hrep])] at hfind
        simp only [hrep, Bool.false_eq_true, if_false]
        refine ⟨_, _, rfl, ?_, ?_⟩
        · exact registerEntity_log_overwrite _ hfind hne
        · unfold GetComponent
          simp only [hrep, Bool.false_eq_true, if_false]
          exact registerEntity_find_self _ _ _ _

/-- Witness for C5: a scene whose replicated node table maps id 5 to node 1
and whose replicated component table maps id 5 to component 1; adding node 2
and component 2 under the explicit id 5 succeeds, warns, and rebinds the id
in both tables. -/
theorem C5_witness :
    (∃ s' log,
      NodeAdded collisionState 5 2 0 = some (s', log, 5) ∧
      log = [LogMsg.overwritingNode 5] ∧ GetNode s' 5 = some 2) ∧
    (∃ s' log,
      ComponentAdded collisionState 5 2 0 = some (s', log, 5) ∧
      log = [LogMsg.overwritingComponent 5] ∧ GetComponent s' 5 = some 2) := by
  have h := C5_explicit_id_collision_last_writer_wins
    collisionState 5 2 1 0 (by decide) (by decide)
  exact ⟨h.1 (by decide), h.2 (by decide)⟩

/-- C7 counterexample: the claim asserts `Scene::StopAsyncLoading` resets
all async progress counters.  It does not: at a state with
`loadedNodes_ = 3` the counter keeps its value (it is only reset by the next
`LoadAsync`). -/
theorem C7_counterexample :
    (StopAsyncLoading inProgressAsyncState).asyncProgress_.loadedNodes_ ≠ 0 := by
  decide

/-- C7 (amended): after `Scene::StopAsyncLoading` the async flag is false,
the held stream/file references are released, the XML cursor, JSON index and
pending resource set are cleared, and the resolver's remembered
node/component maps are empty; the four async progress counters are NOT
reset but keep their values (they are reset at the start of the next
`LoadAsync`), and nodes already materialized in the live tree remain. -/
theorem C7_stop_async_loading (s : AsyncSceneState) :
    (StopAsyncLoading s).asyncLoading_ = false ∧
    (StopAsyncLoading s).asyncProgress_.file_ = none ∧
    (StopAsyncLoading s).asyncProgress_.xmlFile_ = none ∧
    (StopAsyncLoading s).asyncProgress_.jsonFile_ = none ∧
    (StopAsyncLoading s).asyncProgress_.xmlElement_ = none ∧
    (StopAsyncLoading s).asyncProgress_.jsonIndex_ = 0 ∧
    (StopAsyncLoading s).asyncProgress_.resources_ = [] ∧
    (StopAsyncLoading s).resolverNodes_ = [] ∧
    (StopAsyncLoading s).resolverComponents_ = [] ∧
    (StopAsyncLoading s).asyncProgress_.loadedNodes_ =
      s.asyncProgress_.loadedNodes_ ∧
    (StopAsyncLoading s).asyncProgress_.totalNodes_ =
      s.asyncProgress_.totalNodes_ ∧
    (StopAsyncLoading s).asyncProgress_.loadedResources_ =
      s.asyncProgress_.loadedResources_ ∧
    (StopAsyncLoading s).asyncProgress_.totalResources_ =
      s.asyncProgress_.totalResources_ ∧
    (StopAsyncLoading s).liveNodes_ = s.liveNodes_ := by
  unfold StopAsyncLoading
  repeat constructor

/-- C8 counterexample: the claim expects the first auto-assigned replicated
child id on a fresh scene to be `FIRST_REPLICATED_ID`; it is not, because
`Scene::Scene()` already assigned `FIRST_REPLICATED_ID` to the scene root
itself. -/
theorem C8_counterexample :
    firstChildAutoReplicatedId ≠ some FIRST_REPLICATED_ID := by decide

/-- C8 (amended): on a freshly constructed scene the root node holds
`FIRST_REPLICATED_ID` (assigned by the constructor), so the first child
created with an auto-assigned replicated id receives the second id of the
replicated range, `FIRST_REPLICATED_ID + 1`. -/
theorem C8_first_child_gets_second_replicated_id :
    firstChildAutoReplicatedId = some (FIRST_REPLICATED_ID + 1) ∧
    (sceneNew 1).map Prod.snd = some FIRST_REPLICATED_ID := by decide

/-- C9: the stored scene time scale is always strictly positive —
`SetTimeScale` clamps every argument to at least `M_EPSILON`, `Update`
multiplies the incoming time step by exactly this stored factor, and
`SetAsyncLoadingMs` clamps the per-frame budget to at least 1 ms. -/
theorem C9_time_scale_strictly_positive (scale timeStep : ℚ) (ms : Int) :
    0 < SetTimeScale scale ∧
    scaledTimeStep timeStep (SetTimeScale scale) =
      timeStep * SetTimeScale scale ∧
    1 ≤ SetAsyncLoadingMs ms := by
  refine ⟨lt_of_lt_of_le (by norm_num [M_EPSILON]) (le_max_right _ _), rfl, ?_⟩
  exact le_max_right _ _

/-- C10: `Scene::GetAsyncProgress` is total and never divides by zero — it
returns exactly 1 when no async load is active or both totals are zero, and
otherwise the loaded/total ratio whose denominator is provably nonzero. -/
theorem C10_async_progress_total (b : Bool)
    (loadedN totalN loadedR totalR : Nat) :
    ((b = false ∨ totalN + totalR = 0) →
      GetAsyncProgress b loadedN totalN loadedR totalR = 1) ∧
    (b = true → totalN + totalR ≠ 0 →
      GetAsyncProgress b loadedN totalN loadedR totalR =
        ((loadedN : ℚ) + (loadedR : ℚ)) / ((totalN : ℚ) + (totalR : ℚ)) ∧
      ((totalN : ℚ) + (totalR : ℚ)) ≠ 0) := by
  constructor
  · rintro (hb | ht)
    · subst hb; rfl
    · unfold GetAsyncProgress
      rw [if_pos]
      simp [ht]
  · intro hb ht
    subst hb
    constructor
    · unfold GetAsyncProgress
      rw [if_neg]
      simp [ht]
    · intro h
      apply ht
      have : ((totalN : ℚ) + (totalR : ℚ)) = ((totalN + totalR : Nat) : ℚ) := by
        push_cast; ring
      rw [this] at h
      exact_mod_cast h

/-! ### Id uniqueness invariant (C1) -/

theorem sceneWF_of_tables_eq {s t : SceneState}
    (e1 : s.replicatedNodes = t.replicatedNodes)
    (e2 : s.localNodes = t.localNodes)
    (e3 : s.replicatedComponents = t.replicatedComponents)
    (e4 : s.localComponents = t.localComponents) (h : sceneWF t) :
    sceneWF s := by
  unfold sceneWF at h ⊢
  rw [e1, e2, e3, e4]
  exact h

theorem GetFreeNodeID_tables {mode : CreateMode} {s s' : SceneState}
    {fuel id : Nat} (h : GetFreeNodeID mode s fuel = some (id, s')) :
    s'.replicatedNodes = s.replicatedNodes ∧ s'.localNodes = s.localNodes ∧
    s'.replicatedComponents = s.replicatedComponents ∧
    s'.localComponents = s.localComponents := by
  cases mode with
  | REPLICATED =>
      simp only [GetFreeNodeID] at h
      cases hscan : freeIdScan (fun i => tableContains s.replicatedNodes i)
          FIRST_REPLICATED_ID LAST_REPLICATED_ID s.replicatedNodeID fuel with
      | none => rw [hscan] at h; exact Option.noConfusion h
      | some p =>
          obtain ⟨ret, next⟩ := p
          rw [hscan] at h
          cases h
          exact ⟨rfl, rfl, rfl, rfl⟩
  | LOCAL =>
      simp only [GetFreeNodeID] at h
      cases hscan : freeIdScan (fun i => tableContains s.localNodes i)
          FIRST_LOCAL_ID LAST_LOCAL_ID s.localNodeID fuel with
      | none => rw [hscan] at h; exact Option.noConfusion h
      | some p =>
          obtain ⟨ret, next⟩ := p
          rw [hscan] at h
          cases h
          exact ⟨rfl, rfl, rfl, rfl⟩

theorem GetFreeComponentID_tables {mode : CreateMode} {s s' : SceneState}
    {fuel id : Nat} (h : GetFreeComponentID mode s fuel = some (id, s')) :
    s'.replicatedNodes = s.replicatedNodes ∧ s'.localNodes = s.localNodes ∧
    s'.replicatedComponents = s.replicatedComponents ∧
    s'.localComponents = s.localComponents := by
  cases mode with
  | REPLICATED =>
      simp only [GetFreeComponentID] at h
      cases hscan : freeIdScan (fun i => tableContains s.replicatedComponents i)
          FIRST_REPLICATED_ID LAST_REPLICATED_ID s.replicatedComponentID
          fuel with
      | none => rw [hscan] at h; exact Option.noConfusion h
      | some p =>
          obtain ⟨ret, next⟩ := p
          rw [hscan] at h
          cases h
          exact ⟨rfl, rfl, rfl, rfl⟩
  | LOCAL =>
      simp only [GetFreeComponentID] at h
      cases hscan : freeIdScan (fun i => tableContains s.localComponents i)
          FIRST_LOCAL_ID LAST_LOCAL_ID s.localComponentID fuel with
      | none => rw [hscan] at h; exact Option.noConfusion h
      | some p =>
          obtain ⟨ret, next⟩ := p
          rw [hscan] at h
          cases h
          exact ⟨rfl, rfl, rfl, rfl⟩

theorem NodeAdded_WF {s s' : SceneState} {nid node fuel aid : Nat}
    {log : List LogMsg}
    (h : NodeAdded s nid node fuel = some (s', log, aid))
    (hw : sceneWF s) : sceneWF s' := by
  unfold NodeAdded at h
  cases ha : assignNodeId s nid fuel with
  | none => rw [ha] at h; exact Option.noConfusion h
  | some p =>
      obtain ⟨id, s1⟩ := p
      rw [ha] at h
      have hs1 : sceneWF s1 := by
        unfold assignNodeId at ha
        by_cases h0 : nid = 0
        · rw [if_pos h0] at ha
          obtain ⟨e1, e2, e3, e4⟩ := GetFreeNodeID_tables ha
          exact sceneWF_of_tables_eq e1 e2 e3 e4 hw
        · rw [if_neg h0] at ha
          cases ha
          exact hw
      unfold sceneWF at hs1
      cases hrep : IsReplicatedID id with
      | true =>
          simp only [hrep, if_true] at h
          cases h
          exact ⟨registerEntity_WF _ _ _ hs1.1, hs1.2.1, hs1.2.2.1, hs1.2.2.2⟩
      | false =>
          simp only [hrep, Bool.false_eq_true, if_false] at h
          cases h
          exact ⟨hs1.1, registerEntity_WF _ _ _ hs1.2.1, hs1.2.2.1, hs1.2.2.2⟩

theorem ComponentAdded_WF {s s' : SceneState} {cid comp fuel aid : Nat}
    {log : List LogMsg}
    (h : ComponentAdded s cid comp fuel = some (s', log, aid))
    (hw : sceneWF s) : sceneWF s' := by
  unfold ComponentAdded at h
  cases ha : assignComponentId s cid fuel with
  | none => rw [ha] at h; exact Option.noConfusion h
  | some p =>
      obtain ⟨id, s1⟩ := p
      rw [ha] at h
      have hs1 : sceneWF s1 := by
        unfold assignComponentId at ha
        by_cases h0 : cid = 0
        · rw [if_pos h0] at ha
          obtain ⟨e1, e2, e3, e4⟩ := GetFreeComponentID_tables ha
          exact sceneWF_of_tables_eq e1 e2 e3 e4 hw
        · rw [if_neg h0] at ha
          cases ha
          exact hw
      unfold sceneWF at hs1
      cases hrep : IsReplicatedID id with
      | true =>
          simp only [hrep, if_true] at h
          cases h
          exact ⟨hs1.1, hs1.2.1, registerEntity_WF _ _ _ hs1.2.2.1, hs1.2.2.2⟩
      | false =>
          simp only [hrep, Bool.false_eq_true, if_false] at h
          cases h
          exact ⟨hs1.1, hs1.2.1, hs1.2.2.1, registerEntity_WF _ _ _ hs1.2.2.2⟩

theorem NodeRemoved_WF (s : SceneState) (id : Nat) (hw : sceneWF s) :
    sceneWF (NodeRemoved s id) := by
  unfold sceneWF at hw ⊢
  unfold NodeRemoved
  by_cases hrep : IsReplicatedID id = true
  · rw [if_pos hrep]
    exact ⟨tableWF_tableErase _ hw.1, hw.2.1, hw.2.2.1, hw.2.2.2⟩
  · rw [if_neg hrep]
    exact ⟨hw.1, tableWF_tableErase _ hw.2.1, hw.2.2.1, hw.2.2.2⟩

theorem ComponentRemoved_WF (s : SceneState) (id : Nat) (hw : sceneWF s) :
    sceneWF (ComponentRemoved s id) := by
  unfold sceneWF at hw ⊢
  unfold ComponentRemoved
  by_cases hrep : IsReplicatedID id = true
  · rw [if_pos hrep]
    exact ⟨hw.1, hw.2.1, tableWF_tableErase _ hw.2.2.1, hw.2.2.2⟩
  · rw [if_neg hrep]
    exact ⟨hw.1, hw.2.1, hw.2.2.1, tableWF_tableErase _ hw.2.2.2⟩

theorem sceneNew_WF {s : SceneState} {id fuel : Nat}
    (h : sceneNew fuel = some (s, id)) : sceneWF s := by
  unfold sceneNew at h
  cases hg : GetFreeNodeID .REPLICATED initialTables fuel with
  | none => rw [hg] at h; exact Option.noConfusion h
  | some p =>
      obtain ⟨id0, s1⟩ := p
      rw [hg] at h
      simp only [Option.some_bind] at h
      cases hn : NodeAdded s1 id0 sceneHandle fuel with
      | none => rw [hn] at h; exact Option.noConfusion h
      | some q =>
          obtain ⟨s2, log, aid⟩ := q
          rw [hn] at h
          simp only [Option.map_some'] at h
          cases h
          obtain ⟨e1, e2, e3, e4⟩ := GetFreeNodeID_tables hg
          exact NodeAdded_WF hn
            (sceneWF_of_tables_eq e1 e2 e3 e4 (by decide))

theorem sceneWF_reachable {s : SceneState} (hs : Reachable s) : sceneWF s := by
  induction hs with
  | init s id fuel h => exact sceneNew_WF h
  | nodeAdded s s' nid node fuel log aid hs h ih => exact NodeAdded_WF h ih
  | nodeRemoved s id hs ih => exact NodeRemoved_WF s id ih
  | componentAdded s s' cid comp fuel log aid hs h ih =>
      exact ComponentAdded_WF h ih
  | componentRemoved s id hs ih => exact ComponentRemoved_WF s id ih

theorem GetFreeNodeID_not_contains {mode : CreateMode} {s s' : SceneState}
    {fuel id : Nat} (h : GetFreeNodeID mode s fuel = some (id, s')) :
    tableContains (nodeTable s mode) id = false := by
  cases mode with
  | REPLICATED =>
      simp only [GetFreeNodeID] at h
      cases hscan : freeIdScan (fun i => tableContains s.replicatedNodes i)
          FIRST_REPLICATED_ID LAST_REPLICATED_ID s.replicatedNodeID fuel with
      | none => rw [hscan] at h; exact Option.noConfusion h
      | some p =>
          obtain ⟨ret, next⟩ := p
          rw [hscan] at h
          cases h
          exact freeIdScan_sound _ _ _ _ _ _ _ hscan
  | LOCAL =>
      simp only [GetFreeNodeID] at h
      cases hscan : freeIdScan (fun i => tableContains s.localNodes i)
          FIRST_LOCAL_ID LAST_LOCAL_ID s.localNodeID fuel with
      | none => rw [hscan] at h; exact Option.noConfusion h
      | some p =>
          obtain ⟨ret, next⟩ := p
          rw [hscan] at h
          cases h
          exact freeIdScan_sound _ _ _ _ _ _ _ hscan

theorem GetFreeComponentID_not_contains {mode : CreateMode}
    {s s' : SceneState} {fuel id : Nat}
    (h : GetFreeComponentID mode s fuel = some (id, s')) :
    tableContains (componentTable s mode) id = false := by
  cases mode with
  | REPLICATED =>
      simp only [GetFreeComponentID] at h
      cases hscan : freeIdScan (fun i => tableContains s.replicatedComponents i)
          FIRST_REPLICATED_ID LAST_REPLICATED_ID s.replicatedComponentID
          fuel with
      | none => rw [hscan] at h; exact Option.noConfusion h
      | some p =>
          obtain ⟨ret, next⟩ := p
          rw [hscan] at h
          cases h
          exact freeIdScan_sound _ _ _ _ _ _ _ hscan
  | LOCAL =>
      simp only [GetFreeComponentID] at h
      cases hscan : freeIdScan (fun i => tableContains s.localComponents i)
          FIRST_LOCAL_ID LAST_LOCAL_ID s.localComponentID fuel with
      | none => rw [hscan] at h; exact Option.noConfusion h
      | some p =>
          obtain ⟨ret, next⟩ := p
          rw [hscan] at h
          cases h
          exact freeIdScan_sound _ _ _ _ _ _ _ hscan

/-- C1: in every state reachable by any sequence of node/component creations
(explicit or auto-assigned ids) and removals from a freshly constructed
scene, each of the four lookup tables maps each id to at most one live
entity (no two live entities of the same kind and replication mode share an
id), and an id returned by the free-id scan is never currently present in
the corresponding table. -/
theorem C1_no_two_live_entities_share_id (s : SceneState)
    (hs : Reachable s) :
    sceneWF s ∧
    (∀ mode fuel id s', GetFreeNodeID mode s fuel = some (id, s') →
      tableContains (nodeTable s mode) id = false) ∧
    (∀ mode fuel id s', GetFreeComponentID mode s fuel = some (id, s') →
      tableContains (componentTable s mode) id = false) :=
  ⟨sceneWF_reachable hs,
    fun _ _ _ _ h => GetFreeNodeID_not_contains h,
    fun _ _ _ _ h => GetFreeComponentID_not_contains h⟩

/-- Witness for C1 at the state reached by the scene constructor: the tables
are well formed and the next free replicated node id (2) is absent from the
replicated node table. -/
theorem C1_witness :
    sceneWF freshScene ∧
    tableContains (nodeTable freshScene .REPLICATED) 2 = false := by
  have h := C1_no_two_live_entities_share_id freshScene
    (Reachable.init freshScene FIRST_REPLICATED_ID 1 (by decide))
  exact ⟨h.1,
    h.2.1 .REPLICATED 1 2 { freshScene with replicatedNodeID := 3 }
      (by decide)⟩

/-! ### Async loading lemmas (C3, C4) -/

theorem processNodes_succ (n : Nat) (a : AsyncLoadState) :
    processNodes (n + 1) a =
      if a.totalNodes ≤ a.loadedNodes then
        (finishAsyncLoading a, [.asyncLoadFinished])
      else
        match a.pending with
        | [] => (a, [])
        | c :: rest =>
            processNodes n
              { a with
                  pending := rest
                  sceneChildren := a.sceneChildren ++ [c]
                  loadedNodes := a.loadedNodes + 1 } := rfl

theorem finishAsyncLoading_correct (st : SceneStream) (a : AsyncLoadState)
    (hw : asyncWF st a) (hdone : a.totalNodes ≤ a.loadedNodes) :
    asyncDone st (finishAsyncLoading a) := by
  obtain ⟨hload, hmode, hlr, htr, htn, hcnt, hsplit, hroot, hres⟩ := hw
  have hpend : a.pending = [] := by
    have : a.pending.length = 0 := by omega
    exact List.length_eq_zero.mp this
  have hchildren : a.sceneChildren = st.children := by
    rw [hpend, List.append_nil] at hsplit
    exact hsplit
  refine ⟨rfl, ?_⟩
  unfold asyncResultScene finishAsyncLoading syncLoad
  simp only [hroot, Option.getD_some, hchildren, hmode]
  rfl

theorem processNodes_succ_cons (n : Nat) (a : AsyncLoadState)
    (c : ChildNode) (rest : List ChildNode)
    (hdone : ¬ a.totalNodes ≤ a.loadedNodes) (hp : a.pending = c :: rest) :
    processNodes (n + 1) a =
      processNodes n
        { a with
            pending := rest
            sceneChildren := a.sceneChildren ++ [c]
            loadedNodes := a.loadedNodes + 1 } := by
  rw [processNodes_succ, if_neg hdone, hp]

theorem consumed_asyncWF (st : SceneStream) (a : AsyncLoadState)
    (c : ChildNode) (rest : List ChildNode) (hw : asyncWF st a)
    (hp : a.pending = c :: rest) :
    asyncWF st
      { a with
          pending := rest
          sceneChildren := a.sceneChildren ++ [c]
          loadedNodes := a.loadedNodes + 1 } := by
  obtain ⟨hload, hmode, hlr, htr, htn, hcnt, hsplit, hroot, hres⟩ := hw
  refine ⟨hload, hmode, hlr, htr, htn, ?_, ?_, hroot, hres⟩
  · show a.loadedNodes + 1 + rest.length = a.totalNodes
    rw [hp] at hcnt
    simp only [List.length_cons] at hcnt
    omega
  · show (a.sceneChildren ++ [c]) ++ rest = st.children
    rw [List.append_assoc, List.singleton_append, ← hp]
    exact hsplit

theorem processNodes_monotone (st : SceneStream) :
    ∀ (fuel : Nat) (a : AsyncLoadState), asyncWF st a →
      asyncDone st (processNodes fuel a).1 ∨
        (asyncWF st (processNodes fuel a).1 ∧
          (processNodes fuel a).1.pending.length ≤ a.pending.length) := by
  intro fuel
  induction fuel with
  | zero => intro a hw; exact Or.inr ⟨hw, le_rfl⟩
  | succ n ih =>
      intro a hw
      by_cases hdone : a.totalNodes ≤ a.loadedNodes
      · rw [processNodes_succ, if_pos hdone]
        exact Or.inl (finishAsyncLoading_correct st a hw hdone)
      · cases hp : a.pending with
        | nil =>
            exfalso
            have hcnt := hw.2.2.2.2.2.1
            rw [hp] at hcnt
            simp at hcnt
            omega
        | cons c rest =>
            rw [processNodes_succ_cons n a c rest hdone hp]
            have hw1 := consumed_asyncWF st a c rest hw hp
            rcases ih _ hw1 with hfin | ⟨hw2, hle⟩
            · exact Or.inl hfin
            · refine Or.inr ⟨hw2, ?_⟩
              have hle2 : (processNodes n
                  { a with
                      pending := rest
                      sceneChildren := a.sceneChildren ++ [c]
                      loadedNodes := a.loadedNodes + 1 }).1.pending.length ≤
                  rest.length := hle
              simp only [List.length_cons]
              exact le_trans hle2 (Nat.le_succ _)

theorem processNodes_progress (st : SceneStream) (n : Nat)
    (a : AsyncLoadState) (hw : asyncWF st a) :
    asyncDone st (processNodes (n + 1) a).1 ∨
      (asyncWF st (processNodes (n + 1) a).1 ∧
        (processNodes (n + 1) a).1.pending.length < a.pending.length) := by
  by_cases hdone : a.totalNodes ≤ a.loadedNodes
  · rw [processNodes_succ, if_pos hdone]
    exact Or.inl (finishAsyncLoading_correct st a hw hdone)
  · cases hp : a.pending with
    | nil =>
        exfalso
        have hcnt := hw.2.2.2.2.2.1
        rw [hp] at hcnt
        simp at hcnt
        omega
    | cons c rest =>
        rw [processNodes_succ_cons n a c rest hdone hp]
        have hw1 := consumed_asyncWF st a c rest hw hp
        rcases processNodes_monotone st n _ hw1 with hfin | ⟨hw2, hle⟩
        · exact Or.inl hfin
        · refine Or.inr ⟨hw2, ?_⟩
          have hle2 : (processNodes n
              { a with
                  pending := rest
                  sceneChildren := a.sceneChildren ++ [c]
                  loadedNodes := a.loadedNodes + 1 }).1.pending.length ≤
              rest.length := hle
          simp only [List.length_cons]
          omega

theorem updateAsyncLoading_step (st : SceneStream) (slice : Nat)
    (hs : 1 ≤ slice) (a : AsyncLoadState) (hw : asyncWF st a) :
    asyncDone st (updateAsyncLoading slice a).1 ∨
      (asyncWF st (updateAsyncLoading slice a).1 ∧
        (updateAsyncLoading slice a).1.pending.length <
          a.pending.length) := by
  have hgate : ¬ (a.loadedResources < a.totalResources) := by
    rw [hw.2.2.1, hw.2.2.2.1]
    omega
  unfold updateAsyncLoading
  rw [if_neg hgate]
  obtain ⟨m, rfl⟩ : ∃ m, slice = m + 1 := ⟨slice - 1, by omega⟩
  exact processNodes_progress st m a hw

theorem runAsync_stopped {a : AsyncLoadState} (h : a.asyncLoading = false)
    (sch : List Nat) : runAsync sch a = a := by
  cases sch with
  | nil => rfl
  | cons x r =>
      unfold runAsync
      rw [h]
      simp

theorem runAsync_done (st : SceneStream) :
    ∀ (sch : List Nat) (a : AsyncLoadState), asyncWF st a →
      (∀ x ∈ sch, 1 ≤ x) → a.pending.length < sch.length →
      asyncDone st (runAsync sch a) := by
  intro sch
  induction sch with
  | nil => intro a _ _ hlen; simp at hlen
  | cons x r ih =>
      intro a hw hpos hlen
      have hx : 1 ≤ x := hpos x (List.mem_cons_self _ _)
      unfold runAsync
      rw [hw.1]
      simp only [if_true]
      rcases updateAsyncLoading_step st x hx a hw with hdone | ⟨hw', hlt⟩
      · rw [runAsync_stopped hdone.1 r]
        exact hdone
      · refine ih _ hw' (fun y hy => hpos y (List.mem_cons_of_mem _ hy)) ?_
        simp only [List.length_cons] at hlen
        omega

/-- C4: for every well-formed binary scene stream and every positive
per-frame node quota schedule long enough to cover the stream, starting a
structural async load with `LoadAsync` and calling `UpdateAsyncLoading`
once per schedule entry terminates the load: the async flag is down (Idle),
the resulting tree (root data, the K root-level children with their ids and
payloads in order, resolver pass applied) is identical to a synchronous
`Scene::Load` of the same stream, and exactly K root-level children are
present. -/
theorem C4_async_load_equals_sync_load (st : SceneStream)
    (schedule : List Nat) (hpos : ∀ x ∈ schedule, 1 ≤ x)
    (hlen : st.children.length < schedule.length) :
    (runAsync schedule (loadAsync st)).asyncLoading = false ∧
    asyncResultScene (runAsync schedule (loadAsync st)) = syncLoad st ∧
    (runAsync schedule (loadAsync st)).sceneChildren.length =
      st.children.length := by
  have hw : asyncWF st (loadAsync st) := by
    refine ⟨rfl, rfl, rfl, rfl, rfl, by simp [loadAsync], by simp [loadAsync],
      rfl, rfl⟩
  have hd := runAsync_done st schedule (loadAsync st) hw hpos
    (by simpa [loadAsync] using hlen)
  refine ⟨hd.1, hd.2, ?_⟩
  have hch := congrArg LoadedScene.children hd.2
  simp only [asyncResultScene, syncLoad] at hch
  rw [hch]

/-- Witness for C4: a three-child stream loaded with one node per frame
finishes in four calls with the synchronous result. -/
theorem C4_witness :
    (runAsync [1, 1, 1, 1]
      (loadAsync ⟨9, 42, [⟨10, 1⟩, ⟨11, 2⟩, ⟨12, 3⟩]⟩)).asyncLoading =
        false ∧
    asyncResultScene (runAsync [1, 1, 1, 1]
      (loadAsync ⟨9, 42, [⟨10, 1⟩, ⟨11, 2⟩, ⟨12, 3⟩]⟩)) =
      syncLoad ⟨9, 42, [⟨10, 1⟩, ⟨11, 2⟩, ⟨12, 3⟩]⟩ ∧
    (runAsync [1, 1, 1, 1]
      (loadAsync ⟨9, 42, [⟨10, 1⟩, ⟨11, 2⟩, ⟨12, 3⟩]⟩)).sceneChildren.length =
      ([⟨10, 1⟩, ⟨11, 2⟩, ⟨12, 3⟩] : List ChildNode).length :=
  C4_async_load_equals_sync_load ⟨9, 42, [⟨10, 1⟩, ⟨11, 2⟩, ⟨12, 3⟩]⟩
    [1, 1, 1, 1] (by decide) (by decide)

/-! ### Lifecycle event ordering (C3) -/

theorem processNodes_events_not_lifecycle :
    ∀ (fuel : Nat) (a : AsyncLoadState),
      ∀ e ∈ (processNodes fuel a).2, e.isLifecycle = false := by
  intro fuel
  induction fuel with
  | zero =>
      intro a e he
      simp only [processNodes, List.mem_singleton] at he
      subst he
      rfl
  | succ n ih =>
      intro a e he
      rw [processNodes_succ] at he
      by_cases hdone : a.totalNodes ≤ a.loadedNodes
      · rw [if_pos hdone] at he
        simp only [List.mem_singleton] at he
        subst he
        rfl
      · rw [if_neg hdone] at he
        cases hp : a.pending with
        | nil => rw [hp] at he; simp at he
        | cons c rest =>
            rw [hp] at he
            exact ih _ e he

theorem updateAsyncLoading_events_not_lifecycle (slice : Nat)
    (a : AsyncLoadState) :
    ∀ e ∈ (updateAsyncLoading slice a).2, e.isLifecycle = false := by
  unfold updateAsyncLoading
  by_cases hg : a.loadedResources < a.totalResources
  · rw [if_pos hg]
    intro e he
    simp at he
  · rw [if_neg hg]
    exact processNodes_events_not_lifecycle slice a

/-- C3: every `Scene::Update` call in which no structural async load is in
progress sends exactly the five lifecycle notifications scene-update,
attribute-animation update, subsystem update, smoothing update and
post-update, in this order (any events of the resource-prefetch loader are
not lifecycle notifications); in particular scene-update precedes
post-update and the subsystem update precedes the smoothing update. -/
theorem C3_update_lifecycle_event_order (slice : Nat) (a : AsyncLoadState)
    (h : a.asyncLoading = true → a.mode.isStructural = false) :
    (sceneUpdate slice a).2.filter (fun e => e.isLifecycle) =
      lifecycleSequence ∧
    lifecycleSequence.indexOf SceneEvent.sceneUpdate <
      lifecycleSequence.indexOf SceneEvent.scenePostUpdate ∧
    lifecycleSequence.indexOf SceneEvent.sceneSubsystemUpdate <
      lifecycleSequence.indexOf SceneEvent.updateSmoothing := by
  refine ⟨?_, by decide, by decide⟩
  unfold sceneUpdate
  cases hload : a.asyncLoading with
  | false => simp only [Bool.false_eq_true, if_false]; decide
  | true =>
      rw [if_pos rfl, h hload]
      simp only [Bool.false_eq_true, if_false, List.filter_append]
      have hnil :
          (updateAsyncLoading slice a).2.filter (fun e => e.isLifecycle) =
            [] := by
        rw [List.filter_eq_nil_iff]
        intro e he
        rw [updateAsyncLoading_events_not_lifecycle slice a e he]
        simp
      rw [hnil]
      simp only [List.nil_append]
      decide

/-- Witness for C3 at a resource-prefetch load state with pending background
resources. -/
theorem C3_witness :
    (sceneUpdate 1 prefetchState).2.filter (fun e => e.isLifecycle) =
      lifecycleSequence ∧
    lifecycleSequence.indexOf SceneEvent.sceneUpdate <
      lifecycleSequence.indexOf SceneEvent.scenePostUpdate ∧
    lifecycleSequence.indexOf SceneEvent.sceneSubsystemUpdate <
      lifecycleSequence.indexOf SceneEvent.updateSmoothing :=
  C3_update_lifecycle_event_order 1 prefetchState (fun _ => rfl)

/-- C6 counterexample: the claim asserts a warning is logged whenever the
hash is already registered for a different string.  The register compares
case-insensitively: after registering "foo", the hash of "FOO" is registered
for the different string "foo", yet registering "FOO" logs nothing. -/
theorem C6_counterexample :
    regFind (RegisterString [] "foo").1 (stringHash "FOO") = some "foo" ∧
    "foo" ≠ "FOO" ∧
    (RegisterString (RegisterString [] "foo").1 "FOO").2.1 = [] := by
  refine ⟨by decide, by decide, by decide⟩

/-- C6 (amended): `RegisterString(name)` always returns the hash of the
requested name unchanged and never fails; if the hash is unregistered the
(hash, name) pair is appended; if the hash is already registered the stored
string is never overwritten, and a collision warning is logged exactly when
the stored string differs from the requested one case-insensitively
(case-only differences are treated as the same name and log nothing). -/
theorem C6_register_string (m : List (Nat × String)) (s : String) :
    (RegisterString m s).2.2 = stringHash s ∧
    (regFind m (stringHash s) = none →
      (RegisterString m s).1 = m ++ [(stringHash s, s)] ∧
      (RegisterString m s).2.1 = []) ∧
    (∀ stored, regFind m (stringHash s) = some stored →
      (RegisterString m s).1 = m ∧
      (eqIgnoreCase stored s = false →
        (RegisterString m s).2.1 =
          [LogMsg.hashCollision (stringHash s) s stored]) ∧
      (eqIgnoreCase stored s = true → (RegisterString m s).2.1 = [])) := by
  cases hf : regFind m (stringHash s) with
  | none =>
      refine ⟨?_, fun _ => ⟨?_, ?_⟩, fun stored hfind => ?_⟩
      · simp [RegisterString, RegisterStringHash, hf]
      · simp [RegisterString, RegisterStringHash, hf]
      · simp [RegisterString, RegisterStringHash, hf]
      · exact Option.noConfusion hfind
  | some stored0 =>
      refine ⟨?_, fun hnone => ?_, fun stored hfind => ?_⟩
      · cases heq : eqIgnoreCase stored0 s <;>
          simp [RegisterString, RegisterStringHash, hf, heq]
      · exact Option.noConfusion hnone
      · obtain rfl : stored0 = stored := Option.some.inj hfind
        refine ⟨?_, fun hne => ?_, fun heq => ?_⟩
        · cases heq : eqIgnoreCase stored0 s <;>
            simp [RegisterString, RegisterStringHash, hf, heq]
        · simp [RegisterString, RegisterStringHash, hf, hne]
        · simp [RegisterString, RegisterStringHash, hf, heq]

/-- Witness for the amended C6 theorem: registering a name into the empty
registry returns its hash and stores the pair. -/
theorem C6_witness :
    (RegisterString [] "abc").2.2 = stringHash "abc" ∧
    (RegisterString [] "abc").1 = [] ++ [(stringHash "abc", "abc")] ∧
    (RegisterString [] "abc").2.1 = [] := by
  have h := C6_register_string [] "abc"
  exact ⟨h.1, (h.2.1 rfl).1, (h.2.1 rfl).2⟩

/-- Witness for C10 at concrete counter values. -/
theorem C10_witness :
    GetAsyncProgress false 1 2 3 4 = 1 ∧
    GetAsyncProgress true 1 2 3 4 =
      ((1 : ℚ) + (3 : ℚ)) / ((2 : ℚ) + (4 : ℚ)) ∧
    ((2 : ℚ) + (4 : ℚ)) ≠ 0 := by
  have h1 := (C10_async_progress_total false 1 2 3 4).1 (Or.inl rfl)
  have h2 := (C10_async_progress_total true 1 2 3 4).2 rfl (by norm_num)
  exact ⟨h1, by exact_mod_cast h2.1, by exact_mod_cast h2.2⟩

